import Mathlib

/-!
Verification of the store-and-forward pipeline of the `nix-dataloggers`
repository against its natural-language specification.

The repository contains two parallel implementations:
* `src/modules/modbus_datalogger/src/database.py` / `publish.py` — the
  batch-oriented SQLite store (`readings(id INTEGER PRIMARY KEY, timestamp TEXT,
  cpu_id TEXT, data_json TEXT, sent_flag INTEGER DEFAULT 0)`) and a per-sink
  publish flow;
* `src/datalogger/store.py` / `publish.py` / `main.py` — the wrapper variant
  (`readings(id INTEGER PRIMARY KEY AUTOINCREMENT, timestamp REAL,
  modbus_data TEXT, published INTEGER DEFAULT 0)`).

Both are embedded shallowly below.  SQLite semantics used: a fresh rowid of an
`INTEGER PRIMARY KEY` table is one larger than the largest rowid currently in
the table (so rowids can be reused once the largest row is deleted; with
`AUTOINCREMENT` they cannot); `DELETE ... LIMIT n` removes at most `n`
matching rows; `UPDATE ... WHERE id IN (...)` touches exactly the listed ids.
-/

namespace Dataloggers

/-- Model of a Python dict key as it can appear in the `data` payload handed to
`json.dumps` (string, int, bool or `None` keys are all serializable). -/
inductive PyKey where
  | s : String → PyKey
  | i : Int → PyKey
  | b : Bool → PyKey
  | n : PyKey
deriving DecidableEq, Repr

/-- Model of a JSON-serializable Python value: the payload type of a reading. -/
inductive PyVal where
  | str : String → PyVal
  | int : Int → PyVal
  | bool : Bool → PyVal
  | none : PyVal
  | list : List PyVal → PyVal
  | dict : List (PyKey × PyVal) → PyVal

/-- Rendering of a dict key by `json.dumps`, which coerces non-string keys to
their JSON string form: `1` becomes `"1"`, `True` becomes `"true"`, `None`
becomes `"null"`. -/
def keyToString : PyKey → String
  | .s v => v
  | .i v => toString v
  | .b true => "true"
  | .b false => "false"
  | .n => "null"

mutual

/-- The net effect on a payload of writing it with `json.dumps`
(`batch_insert_readings`, database.py line 105) and reading it back with
`json.loads` (`get_unsent_readings`, database.py line 153): values survive,
but every dict key is coerced to its JSON string form. -/
def jsonRoundTrip : PyVal → PyVal
  | .str v => .str v
  | .int v => .int v
  | .bool v => .bool v
  | .none => .none
  | .list xs => .list (jsonRoundTripList xs)
  | .dict kvs => .dict (jsonRoundTripKVs kvs)

/-- The map of `jsonRoundTrip` over a JSON array. -/
def jsonRoundTripList : List PyVal → List PyVal
  | [] => []
  | x :: xs => jsonRoundTrip x :: jsonRoundTripList xs

/-- The map of `jsonRoundTrip` over the entries of a JSON object. -/
def jsonRoundTripKVs : List (PyKey × PyVal) → List (PyKey × PyVal)
  | [] => []
  | (k, v) :: kvs => (PyKey.s (keyToString k), jsonRoundTrip v) :: jsonRoundTripKVs kvs

end

mutual

/-- Returns `true` iff every dict key occurring (recursively) in the value is already a
string — the payloads on which JSON serialization is faithful. -/
def stringKeys : PyVal → Bool
  | .str _ => true
  | .int _ => true
  | .bool _ => true
  | .none => true
  | .list xs => stringKeysList xs
  | .dict kvs => stringKeysKVs kvs

/-- Conjunction of `stringKeys` over a JSON array. -/
def stringKeysList : List PyVal → Bool
  | [] => true
  | x :: xs => stringKeys x && stringKeysList xs

/-- Conjunction of `stringKeys` over the entries of a JSON object. -/
def stringKeysKVs : List (PyKey × PyVal) → Bool
  | [] => true
  | (PyKey.s _, v) :: kvs => stringKeys v && stringKeysKVs kvs
  | (_, _) :: _ => false

end

/-!
## Store model — `src/modules/modbus_datalogger/src/database.py`
-/

/-- A row of the `readings` table created by `init_db` (database.py lines
61-79): `id INTEGER PRIMARY KEY, timestamp TEXT NOT NULL, cpu_id TEXT NOT
NULL, data_json TEXT NOT NULL, sent_flag INTEGER NOT NULL DEFAULT 0`.
The `data_json` column holds `json.dumps` of the inserted payload; we record
the inserted payload itself and apply the serialization round trip
(`jsonRoundTrip`) at the point where `get_unsent_readings` deserializes. -/
structure Reading where
  id : Nat
  timestamp : String
  cpu_id : String
  data : PyVal
  sent_flag : Nat

/-- A reading as supplied to `batch_insert_readings`: a dict with keys
`timestamp`, `cpu_id` and `data` (database.py lines 95-106) — no id yet. -/
structure RawReading where
  timestamp : String
  cpu_id : String
  data : PyVal

/-- The rowid SQLite assigns to the next insert into an `INTEGER PRIMARY KEY`
table without `AUTOINCREMENT`: one more than the largest rowid currently in
the table (1 on an empty table). -/
def nextId (rows : List Reading) : Nat :=
  rows.foldr (fun r m => max r.id m) 0 + 1

/-- One row of the `executemany` in `batch_insert_readings` (database.py
lines 108-117): `INSERT INTO readings (timestamp, cpu_id, data_json)
VALUES (?, ?, ?)`, the id being assigned by SQLite. -/
def insertOne (rows : List Reading) (r : RawReading) : List Reading :=
  rows ++ [⟨nextId rows, r.timestamp, r.cpu_id, r.data, 0⟩]

/-- Model of `batch_insert_readings` (database.py lines 87-123): inserts the whole
batch in one transaction, in order.  The function returns `None` in the
source; here the new table state is the result. -/
def batch_insert_readings (rows : List Reading) (readings : List RawReading) :
    List Reading :=
  readings.foldl insertOne rows

/-- The rows selected by `get_unsent_readings` (database.py lines 136-142):
`SELECT ... FROM readings WHERE sent_flag = 0 ORDER BY id ASC LIMIT ?`. -/
def selectUnsent (rows : List Reading) (batch_size : Nat) : List Reading :=
  (((rows.filter (fun r => r.sent_flag = 0)).insertionSort
      (fun a b => a.id ≤ b.id)).take batch_size)

/-- The strongly-typed result row built by `get_unsent_readings`
(database.py lines 11-17 and 148-154): no `sent_flag` field, and `data`
deserialized with `json.loads`. -/
structure ReadingRow where
  id : Nat
  timestamp : String
  cpu_id : String
  data : PyVal

/-- Model of `get_unsent_readings` (database.py lines 125-165): fetches a batch of
unsent readings ordered by id, deserializing each `data_json` column. -/
def get_unsent_readings (rows : List Reading) (batch_size : Nat) :
    List ReadingRow :=
  (selectUnsent rows batch_size).map
    (fun r => ⟨r.id, r.timestamp, r.cpu_id, jsonRoundTrip r.data⟩)

/-- Model of `mark_readings_as_sent` (database.py lines 167-188): returns unchanged on
an empty id list, otherwise `UPDATE readings SET sent_flag = 1 WHERE id = ?`
for each listed id, in one transaction. -/
def mark_readings_as_sent (rows : List Reading) (ids : List Nat) :
    List Reading :=
  if ids = [] then rows
  else rows.map (fun r => if r.id ∈ ids then { r with sent_flag := 1 } else r)

/-- Semantics of `DELETE FROM readings WHERE sent_flag = 1 LIMIT n` for a general limit
`n`: removes at most `n` rows with `sent_flag = 1`, returning the new table
state and the deleted-row count (`cursor.rowcount`). -/
def deleteSentLimit : List Reading → Nat → List Reading × Nat
  | [], _ => ([], 0)
  | r :: rs, n =>
    if r.sent_flag = 1 then
      if n = 0 then (r :: rs, 0)
      else ((deleteSentLimit rs (n - 1)).1, (deleteSentLimit rs (n - 1)).2 + 1)
    else (r :: (deleteSentLimit rs n).1, (deleteSentLimit rs n).2)

/-- Model of `prune_sent_data` (database.py lines 190-211): `DELETE FROM readings
WHERE sent_flag = 1 LIMIT 5000`, returning the number of rows deleted. -/
def prune_sent_data (rows : List Reading) : List Reading × Nat :=
  deleteSentLimit rows 5000

/-- A store operation of this module: the three writers of the `readings`
table (`batch_insert_readings`, `mark_readings_as_sent`, `prune_sent_data`). -/
inductive Op where
  | insert : List RawReading → Op
  | mark : List Nat → Op
  | prune : Op

/-- Apply one store operation. -/
def applyOp (rows : List Reading) : Op → List Reading
  | .insert batch => batch_insert_readings rows batch
  | .mark ids => mark_readings_as_sent rows ids
  | .prune => (prune_sent_data rows).1

/-- Apply a sequence of store operations, oldest first. -/
def applyOps (rows : List Reading) (ops : List Op) : List Reading :=
  ops.foldl applyOp rows

/-!
## Store model — `src/datalogger/store.py` and its callers
-/

/-- A row of the `readings` table created by `store.init_db` (store.py lines
17-26): `id INTEGER PRIMARY KEY AUTOINCREMENT, timestamp REAL, modbus_data
TEXT, published INTEGER DEFAULT 0`.  The REAL `timestamp` written by
`time.time()` is modelled as a `Nat` clock value; the TEXT `modbus_data`
column holds `str(data_dict)`, modelled by the payload value itself. -/
structure DLRow where
  id : Nat
  timestamp : Nat
  modbus_data : PyVal
  published : Nat

/-- Next id for the AUTOINCREMENT table of store.py.  (AUTOINCREMENT ids
exceed every id ever used; on the trace fragments we verify no DLRow is ever
deleted, so largest-current + 1 coincides with it.) -/
def dlNextId (rows : List DLRow) : Nat :=
  rows.foldr (fun r m => max r.id m) 0 + 1

/-- Model of `save_reading` (store.py lines 28-36): `INSERT INTO readings (timestamp,
modbus_data) VALUES (?, ?)` with `(time.time(), str(data_dict))`.  The
wall-clock value read by `time.time()` at insertion is the explicit `now`
argument; note the caller supplies no timestamp of its own. -/
def save_reading (rows : List DLRow) (now : Nat) (data_dict : PyVal) :
    List DLRow :=
  rows ++ [⟨dlNextId rows, now, data_dict, 0⟩]

/-- Model of `get_unpublished_readings` (store.py lines 38-51): `SELECT * FROM
readings WHERE published = 0 ORDER BY timestamp ASC LIMIT ?`. -/
def get_unpublished_readings (rows : List DLRow) (limit : Nat) : List DLRow :=
  (((rows.filter (fun r => r.published = 0)).insertionSort
      (fun a b => a.timestamp ≤ b.timestamp)).take limit)

/-- Model of `mark_as_published` (store.py lines 53-64): returns unchanged on an empty
list, otherwise `UPDATE readings SET published = 1 WHERE id IN (...)`. -/
def mark_as_published (rows : List DLRow) (reading_ids : List Nat) :
    List DLRow :=
  if reading_ids = [] then rows
  else rows.map (fun r =>
    if r.id ∈ reading_ids then { r with published := 1 } else r)

/-- Model of `job_collect` (main.py lines 8-14): reads the sensor and appends the
reading; a raised error (`sample = none`) is logged and skipped.  `now` is
the wall clock at the insert.  The function consults nothing else — in
particular no free-disk-space measurement. -/
def job_collect (rows : List DLRow) (now : Nat) (sample : Option PyVal) :
    List DLRow :=
  match sample with
  | Option.none => rows
  | Option.some d => save_reading rows now d

/-- Model of `publish_pending` (publish.py lines 16-55): drains up to 50 unpublished
rows, publishes each to the single MQTT sink, collects the ids whose publish
was confirmed (`info.is_published()`, modelled by `ack r.id`), and marks
exactly those ids.  Rows whose publish failed stay unmarked; confirmed rows
are marked even when other rows of the same batch failed. -/
def publish_pending (rows : List DLRow) (ack : Nat → Bool) : List DLRow :=
  let readings := get_unpublished_readings rows 50
  if readings.isEmpty then rows
  else
    mark_as_published rows
      ((readings.filter (fun r => ack r.id)).map (fun r => r.id))

/-- A store operation of the store.py variant: its two writers of the
`readings` table — `save_reading` (with the clock value `time.time()` reads
at that insert) and `mark_as_published`.  store.py has no delete. -/
inductive DLOp where
  | save : Nat → PyVal → DLOp
  | mark : List Nat → DLOp

/-- Apply one store.py store operation. -/
def applyDLOp (rows : List DLRow) : DLOp → List DLRow
  | .save now d => save_reading rows now d
  | .mark ids => mark_as_published rows ids

/-- Apply a sequence of store.py store operations, oldest first. -/
def applyDLOps (rows : List DLRow) (ops : List DLOp) : List DLRow :=
  ops.foldl applyDLOp rows

/-- Evaluation of a stored payload string that is a decimal integer literal,
as `eval` performs it: `eval` applied to the text `1` yields the int `1`.
Strings that are not integer literals evaluate as arbitrary Python
expressions or raise, which no claim depends on (`Option.none` here). -/
def evalIntLiteral (cs : List Char) : Option Nat :=
  if cs.isEmpty then Option.none
  else if cs.all Char.isDigit then
    Option.some (cs.foldl (fun acc c => acc * 10 + (c.toNat - 48)) 0)
  else Option.none

/-- Net effect on a payload of store.py's write followed by the pipeline's
read-back: `save_reading` stores `str(data_dict)` (store.py line 35) and
`publish_pending` recovers the payload with `eval(row['modbus_data'])`
(publish.py line 36).  For a non-string payload, `str` renders its `repr`,
which `eval` parses back to an equal value; but for a string payload, `str`
returns the string itself unquoted, so `eval` then executes the payload text
as a Python expression — a digit string such as the text `1` comes back as
the int `1`. -/
def strEvalRoundTrip : PyVal → Option PyVal
  | .str s => (evalIntLiteral s.toList).map (fun n => PyVal.int (Int.ofNat n))
  | v => Option.some v

/-!
## Publish flow — `src/modules/modbus_datalogger/src/publish.py`

This file addresses the `readings` table through columns `data` and
`is_published` (its own schema variant), fetching one row at a time.
-/

/-- A row as seen by modules publish.py: `SELECT id, timestamp, data FROM
readings WHERE is_published = 0 ORDER BY timestamp ASC LIMIT 1` plus the
`is_published` flag it updates. -/
structure PubRow where
  id : Nat
  timestamp : Nat
  data : String
  is_published : Nat

/-- The outcome of one configured sink for one attempt: its `enabled` config
flag and whether the remote acknowledged (HTTP 200/201/204, or MQTT publish
confirmation within the wait loop). -/
structure SinkAttempt where
  enabled : Bool
  ack : Bool

/-- The single row fetched by `api`/`mqtt_publish` (publish.py lines 28-43 and
132-147): oldest unpublished by `timestamp`. -/
def oldestUnpublished (rows : List PubRow) : Option PubRow :=
  ((rows.filter (fun r => r.is_published = 0)).insertionSort
      (fun a b => a.timestamp ≤ b.timestamp)).head?

/-- Semantics of `UPDATE readings SET is_published = 1 WHERE id = ?` (publish.py lines
87-93 and 232-238). -/
def markPub (rows : List PubRow) (id : Nat) : List PubRow :=
  rows.map (fun r => if r.id = id then { r with is_published := 1 } else r)

/-- Model of `api` (publish.py lines 11-112): disabled → `False`; no unpublished row →
`False`; remote acks → mark that single row published and return `True`;
otherwise `False` with the store untouched. -/
def api (rows : List PubRow) (cfg : SinkAttempt) : List PubRow × Bool :=
  if cfg.enabled = false then (rows, false)
  else
    match oldestUnpublished rows with
    | Option.none => (rows, false)
    | Option.some row =>
      if cfg.ack then (markPub rows row.id, true) else (rows, false)

/-- Model of `mqtt_publish` (publish.py lines 115-248): the same fetch-one / deliver /
mark-on-ack flow as `api`, against the MQTT broker. -/
def mqtt_publish (rows : List PubRow) (cfg : SinkAttempt) : List PubRow × Bool :=
  if cfg.enabled = false then (rows, false)
  else
    match oldestUnpublished rows with
    | Option.none => (rows, false)
    | Option.some row =>
      if cfg.ack then (markPub rows row.id, true) else (rows, false)

/-- Model of `publish` (publish.py lines 251-317): returns `(api := False, mqtt :=
False)` when no unpublished rows exist; otherwise runs `api` for every
configured API endpoint and then `mqtt_publish` for every configured broker,
each call keeping only its own result (the results dict is overwritten per
endpoint).  Every sink marks its fetched row itself; no result of one sink
gates another. -/
def publish (rows : List PubRow) (apis : List SinkAttempt)
    (mqtts : List SinkAttempt) : List PubRow × (Bool × Bool) :=
  if (rows.filter (fun r => r.is_published = 0)).isEmpty then
    (rows, (false, false))
  else
    let s1 := apis.foldl (fun acc cfg => api acc.1 cfg) (rows, false)
    let s2 := mqtts.foldl (fun acc cfg => mqtt_publish acc.1 cfg) (s1.1, false)
    (s2.1, (s1.2, s2.2))

/-!
## Helper lemmas
-/

theorem mark_sent_map_field {β : Type} (f : Reading → β)
    (hf : ∀ r : Reading, f { r with sent_flag := 1 } = f r)
    (rows : List Reading) (ids : List Nat) :
    (mark_readings_as_sent rows ids).map f = rows.map f := by
  unfold mark_readings_as_sent
  split
  · rfl
  · rw [List.map_map]
    refine List.map_congr_left fun r _ => ?_
    by_cases h : r.id ∈ ids <;> simp [h, hf]

theorem mark_pub_map_field {β : Type} (f : DLRow → β)
    (hf : ∀ r : DLRow, f { r with published := 1 } = f r)
    (rows : List DLRow) (ids : List Nat) :
    (mark_as_published rows ids).map f = rows.map f := by
  unfold mark_as_published
  split
  · rfl
  · rw [List.map_map]
    refine List.map_congr_left fun r _ => ?_
    by_cases h : r.id ∈ ids <;> simp [h, hf]

theorem mem_selectUnsent {rows : List Reading} {n : Nat} {r : Reading}
    (h : r ∈ selectUnsent rows n) : r ∈ rows ∧ r.sent_flag = 0 := by
  unfold selectUnsent at h
  have h1 : r ∈ (rows.filter (fun r => r.sent_flag = 0)).insertionSort
      (fun a b => a.id ≤ b.id) := (List.take_sublist _ _).subset h
  have h2 := (List.mem_insertionSort _).mp h1
  have h3 := List.mem_filter.mp h2
  exact ⟨h3.1, by simpa using h3.2⟩

theorem mem_get_unpublished {rows : List DLRow} {n : Nat} {r : DLRow}
    (h : r ∈ get_unpublished_readings rows n) : r ∈ rows ∧ r.published = 0 := by
  unfold get_unpublished_readings at h
  have h1 : r ∈ (rows.filter (fun r => r.published = 0)).insertionSort
      (fun a b => a.timestamp ≤ b.timestamp) := (List.take_sublist _ _).subset h
  have h2 := (List.mem_insertionSort _).mp h1
  have h3 := List.mem_filter.mp h2
  exact ⟨h3.1, by simpa using h3.2⟩

theorem foldr_max_init (rows : List Reading) (c : Nat) :
    rows.foldr (fun r m => max r.id m) c =
      max c (rows.foldr (fun r m => max r.id m) 0) := by
  induction rows with
  | nil => simp
  | cons r rs ih => simp only [List.foldr_cons, ih]; omega

theorem id_lt_nextId {rows : List Reading} {r : Reading} (h : r ∈ rows) :
    r.id < nextId rows := by
  unfold nextId
  induction rows with
  | nil => cases h
  | cons a rs ih =>
    rcases List.mem_cons.mp h with rfl | h
    · simp only [List.foldr_cons]; omega
    · have := ih h; simp only [List.foldr_cons]; omega

theorem nextId_insertOne (rows : List Reading) (b : RawReading) :
    nextId (insertOne rows b) = nextId rows + 1 := by
  unfold nextId insertOne
  rw [List.foldr_append, List.foldr_cons, List.foldr_nil, foldr_max_init]
  simp only [nextId]
  omega

theorem deleteSentLimit_zero : ∀ rows : List Reading,
    deleteSentLimit rows 0 = (rows, 0)
  | [] => rfl
  | r :: rs => by
    unfold deleteSentLimit
    by_cases h : r.sent_flag = 1 <;> simp [h, deleteSentLimit_zero rs]

theorem deleteSentLimit_count_le : ∀ (rows : List Reading) (n : Nat),
    (deleteSentLimit rows n).2 ≤ n
  | [], _ => Nat.zero_le _
  | r :: rs, n => by
    unfold deleteSentLimit
    by_cases h : r.sent_flag = 1
    · by_cases hn : n = 0
      · simp [h, hn]
      · have := deleteSentLimit_count_le rs (n - 1)
        simp [h, hn]
        omega
    · have := deleteSentLimit_count_le rs n
      simp [h]
      omega

theorem deleteSentLimit_sublist : ∀ (rows : List Reading) (n : Nat),
    (deleteSentLimit rows n).1.Sublist rows
  | [], _ => List.Sublist.refl _
  | r :: rs, n => by
    unfold deleteSentLimit
    by_cases h : r.sent_flag = 1
    · by_cases hn : n = 0
      · simp [h, hn]
      · simpa [h, hn] using (deleteSentLimit_sublist rs (n - 1)).cons r
    · simpa [h] using (deleteSentLimit_sublist rs n).cons₂ r

theorem deleteSentLimit_unsent : ∀ (rows : List Reading) (n : Nat),
    (deleteSentLimit rows n).1.filter (fun r => r.sent_flag = 0) =
      rows.filter (fun r => r.sent_flag = 0)
  | [], _ => rfl
  | r :: rs, n => by
    unfold deleteSentLimit
    by_cases h : r.sent_flag = 1
    · by_cases hn : n = 0
      · simp [h, hn]
      · have hr : r.sent_flag ≠ 0 := by omega
        simp [h, hn, List.filter_cons, hr, deleteSentLimit_unsent rs (n - 1)]
    · by_cases hr : r.sent_flag = 0 <;>
        simp [h, List.filter_cons, hr, deleteSentLimit_unsent rs n]

theorem deleteSentLimit_length : ∀ (rows : List Reading) (n : Nat),
    (deleteSentLimit rows n).1.length + (deleteSentLimit rows n).2 = rows.length
  | [], _ => rfl
  | r :: rs, n => by
    unfold deleteSentLimit
    by_cases h : r.sent_flag = 1
    · by_cases hn : n = 0
      · simp [h, hn]
      · have := deleteSentLimit_length rs (n - 1)
        simp [h, hn]
        omega
    · have := deleteSentLimit_length rs n
      simp [h]
      omega

theorem batch_insert_ids (batch : List RawReading) : ∀ rows : List Reading,
    (batch_insert_readings rows batch).map (fun r => r.id) =
      rows.map (fun r => r.id) ++ List.range' (nextId rows) batch.length := by
  induction batch with
  | nil => intro rows; simp [batch_insert_readings]
  | cons b bs ih =>
    intro rows
    have step : batch_insert_readings rows (b :: bs) =
        batch_insert_readings (insertOne rows b) bs := rfl
    rw [step, ih (insertOne rows b), nextId_insertOne]
    unfold insertOne
    rw [List.length_cons, List.range'_succ, List.map_append]
    simp

theorem batch_insert_timestamps (batch : List RawReading) :
    ∀ rows : List Reading,
    (batch_insert_readings rows batch).map (fun r => r.timestamp) =
      rows.map (fun r => r.timestamp) ++ batch.map (fun r => r.timestamp) := by
  induction batch with
  | nil => intro rows; simp [batch_insert_readings]
  | cons b bs ih =>
    intro rows
    have step : batch_insert_readings rows (b :: bs) =
        batch_insert_readings (insertOne rows b) bs := rfl
    rw [step, ih (insertOne rows b)]
    unfold insertOne
    simp

theorem batch_insert_take (batch : List RawReading) : ∀ rows : List Reading,
    (batch_insert_readings rows batch).take rows.length = rows := by
  induction batch with
  | nil => intro rows; simp [batch_insert_readings]
  | cons b bs ih =>
    intro rows
    have step : batch_insert_readings rows (b :: bs) =
        batch_insert_readings (insertOne rows b) bs := rfl
    have hlen : (insertOne rows b).length = rows.length + 1 := by
      simp [insertOne]
    have h1 := ih (insertOne rows b)
    rw [hlen] at h1
    have h2 : (batch_insert_readings (insertOne rows b) bs).take rows.length =
        ((batch_insert_readings (insertOne rows b) bs).take
          (rows.length + 1)).take rows.length := by
      rw [List.take_take, Nat.min_eq_left (Nat.le_succ _)]
    rw [step, h2, h1]
    unfold insertOne
    exact List.take_left rows _

theorem mem_batch_insert_of_mem {r : Reading} (batch : List RawReading) :
    ∀ rows : List Reading, r ∈ rows → r ∈ batch_insert_readings rows batch := by
  induction batch with
  | nil => intro rows h; exact h
  | cons b bs ih =>
    intro rows h
    exact ih (insertOne rows b) (List.mem_append_left _ h)

theorem mem_batch_insert {r : Reading} (batch : List RawReading) :
    ∀ rows : List Reading, r ∈ batch_insert_readings rows batch →
      r ∈ rows ∨ nextId rows ≤ r.id := by
  induction batch with
  | nil => intro rows h; exact Or.inl h
  | cons b bs ih =>
    intro rows h
    rcases ih (insertOne rows b) h with h1 | h1
    · rcases List.mem_append.mp h1 with h2 | h2
      · exact Or.inl h2
      · rcases List.mem_singleton.mp h2 with rfl
        exact Or.inr (Nat.le_refl _)
    · rw [nextId_insertOne] at h1
      exact Or.inr (Nat.le_of_succ_le h1)

theorem selectUnsent_sorted (rows : List Reading) (n : Nat) :
    List.Sorted (fun a b : Nat => a ≤ b) ((selectUnsent rows n).map
      (fun r => r.id)) := by
  have htot : IsTotal Reading (fun a b => a.id ≤ b.id) :=
    ⟨fun a b => Nat.le_total a.id b.id⟩
  have htrans : IsTrans Reading (fun a b => a.id ≤ b.id) :=
    ⟨fun _ _ _ h1 h2 => Nat.le_trans h1 h2⟩
  have hs := List.sorted_insertionSort (fun a b : Reading => a.id ≤ b.id)
    (rows.filter (fun r => r.sent_flag = 0))
  have ht : List.Sorted (fun a b : Reading => a.id ≤ b.id)
      (selectUnsent rows n) :=
    hs.sublist (List.take_sublist _ _)
  exact List.Pairwise.map (fun r : Reading => r.id) (fun a b h => h) ht

theorem get_unpublished_sorted (rows : List DLRow) (n : Nat) :
    List.Sorted (fun a b : Nat => a ≤ b) ((get_unpublished_readings rows n).map
      (fun r => r.timestamp)) := by
  have htot : IsTotal DLRow (fun a b => a.timestamp ≤ b.timestamp) :=
    ⟨fun a b => Nat.le_total a.timestamp b.timestamp⟩
  have htrans : IsTrans DLRow (fun a b => a.timestamp ≤ b.timestamp) :=
    ⟨fun _ _ _ h1 h2 => Nat.le_trans h1 h2⟩
  have hs := List.sorted_insertionSort
    (fun a b : DLRow => a.timestamp ≤ b.timestamp)
    (rows.filter (fun r => r.published = 0))
  have ht : List.Sorted (fun a b : DLRow => a.timestamp ≤ b.timestamp)
      (get_unpublished_readings rows n) :=
    hs.sublist (List.take_sublist _ _)
  exact List.Pairwise.map (fun r : DLRow => r.timestamp) (fun a b h => h) ht

mutual

theorem stringKeys_roundTrip : ∀ p : PyVal, stringKeys p = true →
    jsonRoundTrip p = p
  | .str _, _ => rfl
  | .int _, _ => rfl
  | .bool _, _ => rfl
  | .none, _ => rfl
  | .list xs, h => by
    rw [jsonRoundTrip, stringKeysList_roundTrip xs (by simpa [stringKeys] using h)]
  | .dict kvs, h => by
    rw [jsonRoundTrip, stringKeysKVs_roundTrip kvs (by simpa [stringKeys] using h)]

theorem stringKeysList_roundTrip : ∀ xs : List PyVal,
    stringKeysList xs = true → jsonRoundTripList xs = xs
  | [], _ => rfl
  | x :: xs, h => by
    rw [stringKeysList, Bool.and_eq_true] at h
    rw [jsonRoundTripList, stringKeys_roundTrip x h.1,
      stringKeysList_roundTrip xs h.2]

theorem stringKeysKVs_roundTrip : ∀ kvs : List (PyKey × PyVal),
    stringKeysKVs kvs = true → jsonRoundTripKVs kvs = kvs
  | [], _ => rfl
  | (PyKey.s k, v) :: kvs, h => by
    rw [stringKeysKVs, Bool.and_eq_true] at h
    rw [jsonRoundTripKVs, stringKeys_roundTrip v h.1,
      stringKeysKVs_roundTrip kvs h.2, keyToString]
  | (PyKey.i _, _) :: _, h => by simp [stringKeysKVs] at h
  | (PyKey.b _, _) :: _, h => by simp [stringKeysKVs] at h
  | (PyKey.n, _) :: _, h => by simp [stringKeysKVs] at h

end

theorem dlId_lt_dlNextId {rows : List DLRow} {r : DLRow} (h : r ∈ rows) :
    r.id < dlNextId rows := by
  unfold dlNextId
  induction rows with
  | nil => cases h
  | cons a rs ih =>
    rcases List.mem_cons.mp h with rfl | h
    · simp only [List.foldr_cons]; omega
    · have := ih h; simp only [List.foldr_cons]; omega

theorem published_preserved_step {rows : List DLRow} {id : Nat} (op : DLOp)
    (h : ∃ r, r ∈ rows ∧ r.id = id ∧ r.published = 1) :
    ∃ r, r ∈ applyDLOp rows op ∧ r.id = id ∧ r.published = 1 := by
  obtain ⟨r, hr, hid, hflag⟩ := h
  cases op with
  | save now d => exact ⟨r, List.mem_append_left _ hr, hid, hflag⟩
  | mark ids =>
    show ∃ q, q ∈ mark_as_published rows ids ∧ q.id = id ∧ q.published = 1
    unfold mark_as_published
    split
    · exact ⟨r, hr, hid, hflag⟩
    · by_cases h : r.id ∈ ids
      · exact ⟨{ r with published := 1 },
          List.mem_map.mpr ⟨r, hr, by simp [h]⟩, hid, rfl⟩
      · exact ⟨r, List.mem_map.mpr ⟨r, hr, by simp [h]⟩, hid, hflag⟩

/-!
## Claim theorems
-/

/-- C1: the publish cycles of this repository do NOT implement the
all-sinks-ack-before-markSent commit rule.  In
`src/modules/modbus_datalogger/src/publish.py`, each sink marks its fetched
row `is_published = 1` by itself: with one unsent row, an API endpoint that
acks and an MQTT broker that is enabled but never acks the row, the row ends
the cycle marked Sent (and the MQTT result is `False`).  In
`src/datalogger/publish.py`, `publish_pending` marks per-row: with two unsent
rows where the sink confirms row 1 and fails row 2, row 1 is marked Sent even
though the batch was not fully acknowledged. -/
theorem c1_partial_commit_eval :
    ((publish [⟨1, 4, "d", 0⟩] [⟨true, true⟩] [⟨true, false⟩]).1.map
        (fun r => r.is_published) = [1]
      ∧ (publish [⟨1, 4, "d", 0⟩] [⟨true, true⟩] [⟨true, false⟩]).2 =
          (true, false))
    ∧ (publish_pending [⟨1, 10, PyVal.int 1, 0⟩, ⟨2, 11, PyVal.int 2, 0⟩]
        (fun id => id = 1)).map (fun r => r.published) = [1, 0] :=
  ⟨⟨by decide, by decide⟩, by decide⟩

/-- C3: `markSent` is idempotent and total — for both
`mark_readings_as_sent` (database.py) and `mark_as_published` (store.py):
marking twice with the same ids equals marking once, the empty id list leaves
the store unchanged, and a row already Sent is left exactly as it is. -/
theorem c3_markSent_idempotent :
    (∀ (rows : List Reading) (ids : List Nat),
        mark_readings_as_sent (mark_readings_as_sent rows ids) ids =
          mark_readings_as_sent rows ids)
    ∧ (∀ rows : List Reading, mark_readings_as_sent rows [] = rows)
    ∧ (∀ (rows : List Reading) (ids : List Nat) (r : Reading),
        r ∈ rows → r.sent_flag = 1 → r ∈ mark_readings_as_sent rows ids)
    ∧ (∀ (rows : List DLRow) (ids : List Nat),
        mark_as_published (mark_as_published rows ids) ids =
          mark_as_published rows ids)
    ∧ (∀ rows : List DLRow, mark_as_published rows [] = rows)
    ∧ (∀ (rows : List DLRow) (ids : List Nat) (r : DLRow),
        r ∈ rows → r.published = 1 → r ∈ mark_as_published rows ids) := by
  refine ⟨?_, ?_, ?_, ?_, ?_, ?_⟩
  · intro rows ids
    unfold mark_readings_as_sent
    split
    · rfl
    · rw [List.map_map]
      refine List.map_congr_left fun r _ => ?_
      by_cases h : r.id ∈ ids <;> simp [h]
  · intro rows; simp [mark_readings_as_sent]
  · intro rows ids r hr hflag
    unfold mark_readings_as_sent
    split
    · exact hr
    · refine List.mem_map.mpr ⟨r, hr, ?_⟩
      by_cases h : r.id ∈ ids <;> simp [h]
      cases r
      simp_all
  · intro rows ids
    unfold mark_as_published
    split
    · rfl
    · rw [List.map_map]
      refine List.map_congr_left fun r _ => ?_
      by_cases h : r.id ∈ ids <;> simp [h]
  · intro rows; simp [mark_as_published]
  · intro rows ids r hr hflag
    unfold mark_as_published
    split
    · exact hr
    · refine List.mem_map.mpr ⟨r, hr, ?_⟩
      by_cases h : r.id ∈ ids <;> simp [h]
      cases r
      simp_all

/-- Witness for C3: the hypothesised conjuncts applied at a concrete store —
a single already-Sent row survives `mark_readings_as_sent` /
`mark_as_published` unchanged. -/
theorem c3_markSent_idempotent_witness :
    (⟨1, "t", "c", PyVal.int 1, 1⟩ : Reading) ∈
        mark_readings_as_sent [⟨1, "t", "c", PyVal.int 1, 1⟩] [1]
    ∧ (⟨1, 5, PyVal.int 1, 1⟩ : DLRow) ∈
        mark_as_published [⟨1, 5, PyVal.int 1, 1⟩] [1] :=
  ⟨c3_markSent_idempotent.2.2.1 _ [1] _ (List.mem_singleton_self _) rfl,
   c3_markSent_idempotent.2.2.2.2.2 _ [1] _ (List.mem_singleton_self _) rfl⟩

/-- C5 counterexample: in `src/datalogger/store.py`, `save_reading` stores
`time.time()` read at insertion — the store's own clock, not a caller-supplied
acquisition timestamp (the caller cannot even pass one).  Inserting the very
same payload under insertion clocks 7 and 9 stores timestamps 7 and 9: the
stored `captured_at` is generated by the store, refuting the claim. -/
theorem c5_store_clock_counterexample :
    (save_reading [] 7 (PyVal.int 1)).map (fun r => r.timestamp) = [7]
    ∧ (save_reading [] 9 (PyVal.int 1)).map (fun r => r.timestamp) = [9] :=
  ⟨by decide, by decide⟩

/-- C5 amended: in database.py, `batch_insert_readings` stores exactly the
caller-supplied timestamps in insertion order; in store.py, `save_reading`
stores the store's own clock value read at insertion (`time.time()`), the
caller supplying none. -/
theorem c5_timestamp_amended :
    (∀ (rows : List Reading) (batch : List RawReading),
        (batch_insert_readings rows batch).map (fun r => r.timestamp) =
          rows.map (fun r => r.timestamp) ++ batch.map (fun r => r.timestamp))
    ∧ (∀ (rows : List DLRow) (now : Nat) (d : PyVal),
        (save_reading rows now d).map (fun r => r.timestamp) =
          rows.map (fun r => r.timestamp) ++ [now]) :=
  ⟨fun rows batch => batch_insert_timestamps batch rows,
   fun rows now d => by simp [save_reading]⟩

/-- C6: `prune_sent_data` is `DELETE FROM readings WHERE sent_flag = 1 LIMIT
5000`, an instance of `deleteSentLimit` at chunk size 5000.  For every chunk
size `n`: a chunk of 0 deletes nothing and reports 0; the deleted count is
bounded by `n`; no Unsent row is ever deleted (the Unsent rows of the result
are exactly those of the input); only existing rows are removed (the result
is a sublist); and the count equals the number of rows removed. -/
theorem c6_prune_bounded :
    (∀ rows : List Reading, deleteSentLimit rows 0 = (rows, 0))
    ∧ (∀ (rows : List Reading) (n : Nat), (deleteSentLimit rows n).2 ≤ n)
    ∧ (∀ (rows : List Reading) (n : Nat),
        (deleteSentLimit rows n).1.filter (fun r => r.sent_flag = 0) =
          rows.filter (fun r => r.sent_flag = 0))
    ∧ (∀ (rows : List Reading) (n : Nat),
        (deleteSentLimit rows n).1.Sublist rows)
    ∧ (∀ (rows : List Reading) (n : Nat),
        (deleteSentLimit rows n).1.length + (deleteSentLimit rows n).2 =
          rows.length)
    ∧ (∀ rows : List Reading, prune_sent_data rows = deleteSentLimit rows 5000) :=
  ⟨deleteSentLimit_zero, deleteSentLimit_count_le, deleteSentLimit_unsent,
   deleteSentLimit_sublist, deleteSentLimit_length, fun _ => rfl⟩

/-- C7: the Collector never consults free disk space.  `job_collect`
(src/datalogger/main.py) reads the sensor and appends unconditionally —
`get_free_disk_space` (database.py), documented as "the core of the
back-pressure system", has no caller anywhere in the repository.  Concretely:
with free space 0 GB, strictly below a 5 GB soft threshold, a tick with a
successful sensor read still appends one row to the empty store. -/
theorem c7_collect_ignores_free_space :
    (0 : Nat) < 5
    ∧ job_collect [] 7 (Option.some (PyVal.int 1)) =
        save_reading [] 7 (PyVal.int 1)
    ∧ (job_collect [] 7 (Option.some (PyVal.int 1))).length = 1 :=
  ⟨by decide, rfl, rfl⟩

/-- C10: frame property of `markSent` for both implementations.  Only the
delivery flag can change: the id, timestamp and payload columns are pointwise
unchanged; a row whose id is not listed is entirely unchanged; and if no
listed id matches any row, the store is entirely unchanged (no error). -/
theorem c10_mark_frame :
    (∀ (rows : List Reading) (ids : List Nat),
        (mark_readings_as_sent rows ids).map (fun r => r.id) =
          rows.map (fun r => r.id))
    ∧ (∀ (rows : List Reading) (ids : List Nat),
        (mark_readings_as_sent rows ids).map (fun r => r.timestamp) =
          rows.map (fun r => r.timestamp))
    ∧ (∀ (rows : List Reading) (ids : List Nat),
        (mark_readings_as_sent rows ids).map (fun r => r.cpu_id) =
          rows.map (fun r => r.cpu_id))
    ∧ (∀ (rows : List Reading) (ids : List Nat),
        (mark_readings_as_sent rows ids).map (fun r => r.data) =
          rows.map (fun r => r.data))
    ∧ (∀ (rows : List Reading) (ids : List Nat) (r : Reading),
        r ∈ rows → r.id ∉ ids → r ∈ mark_readings_as_sent rows ids)
    ∧ (∀ (rows : List Reading) (ids : List Nat),
        (∀ r ∈ rows, r.id ∉ ids) → mark_readings_as_sent rows ids = rows)
    ∧ (∀ (rows : List DLRow) (ids : List Nat),
        (mark_as_published rows ids).map (fun r => r.id) =
          rows.map (fun r => r.id))
    ∧ (∀ (rows : List DLRow) (ids : List Nat),
        (mark_as_published rows ids).map (fun r => r.timestamp) =
          rows.map (fun r => r.timestamp))
    ∧ (∀ (rows : List DLRow) (ids : List Nat),
        (mark_as_published rows ids).map (fun r => r.modbus_data) =
          rows.map (fun r => r.modbus_data))
    ∧ (∀ (rows : List DLRow) (ids : List Nat) (r : DLRow),
        r ∈ rows → r.id ∉ ids → r ∈ mark_as_published rows ids)
    ∧ (∀ (rows : List DLRow) (ids : List Nat),
        (∀ r ∈ rows, r.id ∉ ids) → mark_as_published rows ids = rows) := by
  refine ⟨?_, ?_, ?_, ?_, ?_, ?_, ?_, ?_, ?_, ?_, ?_⟩
  · exact mark_sent_map_field _ (fun r => rfl)
  · exact mark_sent_map_field _ (fun r => rfl)
  · exact mark_sent_map_field _ (fun r => rfl)
  · exact mark_sent_map_field _ (fun r => rfl)
  · intro rows ids r hr hid
    unfold mark_readings_as_sent
    split
    · exact hr
    · exact List.mem_map.mpr ⟨r, hr, by simp [hid]⟩
  · intro rows ids h
    unfold mark_readings_as_sent
    split
    · rfl
    · exact (List.map_congr_left fun r hr => by simp [h r hr]).trans
        (List.map_id' rows)
  · exact mark_pub_map_field _ (fun r => rfl)
  · exact mark_pub_map_field _ (fun r => rfl)
  · exact mark_pub_map_field _ (fun r => rfl)
  · intro rows ids r hr hid
    unfold mark_as_published
    split
    · exact hr
    · exact List.mem_map.mpr ⟨r, hr, by simp [hid]⟩
  · intro rows ids h
    unfold mark_as_published
    split
    · rfl
    · exact (List.map_congr_left fun r hr => by simp [h r hr]).trans
        (List.map_id' rows)

/-- Witness for C10: the hypothesised conjuncts at a concrete store — a row
with an unlisted id survives marking, and marking an id that matches no row
leaves the store unchanged. -/
theorem c10_mark_frame_witness :
    ((⟨2, "t", "c", PyVal.int 1, 0⟩ : Reading) ∈
        mark_readings_as_sent [⟨2, "t", "c", PyVal.int 1, 0⟩] [9])
    ∧ mark_readings_as_sent [(⟨2, "t", "c", PyVal.int 1, 0⟩ : Reading)] [9] =
        [⟨2, "t", "c", PyVal.int 1, 0⟩]
    ∧ ((⟨2, 5, PyVal.int 1, 0⟩ : DLRow) ∈
        mark_as_published [⟨2, 5, PyVal.int 1, 0⟩] [9])
    ∧ mark_as_published [(⟨2, 5, PyVal.int 1, 0⟩ : DLRow)] [9] =
        [⟨2, 5, PyVal.int 1, 0⟩] :=
  ⟨c10_mark_frame.2.2.2.2.1 _ [9] _ (List.mem_singleton_self _) (by decide),
   c10_mark_frame.2.2.2.2.2.1 _ [9]
     (fun r hr => by rcases List.mem_singleton.mp hr with rfl; decide),
   c10_mark_frame.2.2.2.2.2.2.2.2.2.1 _ [9] _ (List.mem_singleton_self _)
     (by decide),
   c10_mark_frame.2.2.2.2.2.2.2.2.2.2 _ [9]
     (fun r hr => by rcases List.mem_singleton.mp hr with rfl; decide)⟩

/-- C2 counterexample: `get_unpublished_readings` (store.py) orders by
`timestamp`, not by `id`.  Two `save_reading` calls whose insertion clocks go
backwards (5 then 3 — `time.time()` is not monotonic) produce rows with ids
1, 2 but timestamps 5, 3; the fetch then returns ids `[2, 1]`, which is not
ascending id order, refuting the claim for this `fetchUnsent`
implementation. -/
theorem c2_timestamp_order_counterexample :
    (get_unpublished_readings
        (save_reading (save_reading [] 5 (PyVal.int 0)) 3 (PyVal.int 0)) 100).map
        (fun r => r.id) = [2, 1]
    ∧ ¬ List.Sorted (fun a b : Nat => a ≤ b)
        ((get_unpublished_readings
          (save_reading (save_reading [] 5 (PyVal.int 0)) 3 (PyVal.int 0)) 100).map
          (fun r => r.id)) :=
  ⟨by decide, by decide⟩

/-- C2 amended: both fetchers return at most `limit` rows, return only
Unsent rows (never a Sent row), and return an empty result (not an error)
when no Unsent row exists; `get_unsent_readings` (database.py) orders by id
ascending, but `get_unpublished_readings` (store.py) orders by `timestamp`
ascending, which coincides with id order only when timestamps are monotone
in id. -/
theorem c2_fetch_unsent_amended :
    (∀ (rows : List Reading) (n : Nat), (get_unsent_readings rows n).length ≤ n)
    ∧ (∀ (rows : List Reading) (n : Nat) (r : Reading),
        r ∈ selectUnsent rows n → r ∈ rows ∧ r.sent_flag = 0)
    ∧ (∀ (rows : List Reading) (n : Nat),
        List.Sorted (fun a b : Nat => a ≤ b)
          ((get_unsent_readings rows n).map (fun q => q.id)))
    ∧ (∀ (rows : List Reading) (n : Nat),
        rows.filter (fun r => r.sent_flag = 0) = [] →
        get_unsent_readings rows n = [])
    ∧ (∀ (rows : List DLRow) (limit : Nat),
        (get_unpublished_readings rows limit).length ≤ limit)
    ∧ (∀ (rows : List DLRow) (limit : Nat) (r : DLRow),
        r ∈ get_unpublished_readings rows limit → r ∈ rows ∧ r.published = 0)
    ∧ (∀ (rows : List DLRow) (limit : Nat),
        List.Sorted (fun a b : Nat => a ≤ b)
          ((get_unpublished_readings rows limit).map (fun r => r.timestamp)))
    ∧ (∀ (rows : List DLRow) (limit : Nat),
        rows.filter (fun r => r.published = 0) = [] →
        get_unpublished_readings rows limit = []) := by
  refine ⟨?_, ?_, ?_, ?_, ?_, ?_, ?_, ?_⟩
  · intro rows n
    unfold get_unsent_readings selectUnsent
    rw [List.length_map]
    exact List.length_take_le _ _
  · intro rows n r h
    exact mem_selectUnsent h
  · intro rows n
    unfold get_unsent_readings
    rw [List.map_map]
    exact selectUnsent_sorted rows n
  · intro rows n h
    unfold get_unsent_readings selectUnsent
    rw [h]
    simp
  · intro rows limit
    unfold get_unpublished_readings
    exact List.length_take_le _ _
  · intro rows limit r h
    exact mem_get_unpublished h
  · intro rows limit
    exact get_unpublished_sorted rows limit
  · intro rows limit h
    unfold get_unpublished_readings
    rw [h]
    simp

/-- Witness for C2 amended: the hypothesised conjuncts at concrete stores —
a selected unsent row is indeed an unsent row of the store, and a store whose
rows are all Sent yields an empty fetch. -/
theorem c2_fetch_unsent_amended_witness :
    ((⟨1, "t", "c", PyVal.int 1, 0⟩ : Reading) ∈
        [(⟨1, "t", "c", PyVal.int 1, 0⟩ : Reading)]
      ∧ (⟨1, "t", "c", PyVal.int 1, 0⟩ : Reading).sent_flag = 0)
    ∧ get_unsent_readings [(⟨1, "t", "c", PyVal.int 1, 1⟩ : Reading)] 5 = []
    ∧ ((⟨1, 5, PyVal.int 1, 0⟩ : DLRow) ∈ [(⟨1, 5, PyVal.int 1, 0⟩ : DLRow)]
      ∧ (⟨1, 5, PyVal.int 1, 0⟩ : DLRow).published = 0)
    ∧ get_unpublished_readings [(⟨1, 5, PyVal.int 1, 1⟩ : DLRow)] 5 = [] :=
  ⟨c2_fetch_unsent_amended.2.1 [⟨1, "t", "c", PyVal.int 1, 0⟩] 5 _
      (List.mem_singleton_self _),
   c2_fetch_unsent_amended.2.2.2.1 [⟨1, "t", "c", PyVal.int 1, 1⟩] 5 rfl,
   c2_fetch_unsent_amended.2.2.2.2.2.1 [⟨1, 5, PyVal.int 1, 0⟩] 5 _
      (List.mem_singleton_self _),
   c2_fetch_unsent_amended.2.2.2.2.2.2.2 [⟨1, 5, PyVal.int 1, 1⟩] 5 rfl⟩

/-- C4 counterexample: ids ARE reused by database.py.  The `readings` table
uses `INTEGER PRIMARY KEY` without `AUTOINCREMENT`, so the next rowid is one
more than the largest rowid currently present.  Insert a reading (id 1), mark
it Sent, prune it, insert a different reading: the new row gets id 1 again —
the same id for two different readings, refuting "ids never reused".  (The
source functions also return `None`, not the assigned id list.) -/
theorem c4_id_reuse_counterexample :
    (batch_insert_readings [] [⟨"t1", "c", PyVal.int 1⟩]).map
        (fun r => r.id) = [1]
    ∧ (batch_insert_readings [] [⟨"t1", "c", PyVal.int 1⟩]).map
        (fun r => r.timestamp) = ["t1"]
    ∧ (batch_insert_readings
        ((prune_sent_data (mark_readings_as_sent
            (batch_insert_readings [] [⟨"t1", "c", PyVal.int 1⟩]) [1])).1)
        [⟨"t2", "c", PyVal.int 2⟩]).map (fun r => r.id) = [1]
    ∧ (batch_insert_readings
        ((prune_sent_data (mark_readings_as_sent
            (batch_insert_readings [] [⟨"t1", "c", PyVal.int 1⟩]) [1])).1)
        [⟨"t2", "c", PyVal.int 2⟩]).map (fun r => r.timestamp) = ["t2"] := by
  refine ⟨by decide, by decide, by decide, by decide⟩

/-- C4 amended: `batch_insert_readings` appends the whole batch after the
existing rows (all-or-nothing in one transaction), assigning consecutive ids
starting at one more than the largest id currently in the table — so the
assigned ids are in insertion order, strictly increasing within the call, and
greater than every id present at the call.  Ids are, however, not returned to
the caller and can be reused after the largest-id row has been pruned. -/
theorem c4_append_amended :
    (∀ (rows : List Reading) (batch : List RawReading),
        (batch_insert_readings rows batch).map (fun r => r.id) =
          rows.map (fun r => r.id) ++ List.range' (nextId rows) batch.length)
    ∧ (∀ (rows : List Reading) (batch : List RawReading),
        (batch_insert_readings rows batch).map (fun r => r.timestamp) =
          rows.map (fun r => r.timestamp) ++ batch.map (fun r => r.timestamp))
    ∧ (∀ (rows : List Reading) (batch : List RawReading),
        (batch_insert_readings rows batch).take rows.length = rows)
    ∧ (∀ (rows : List Reading) (batch : List RawReading),
        (batch_insert_readings rows batch).length =
          rows.length + batch.length)
    ∧ (∀ (rows : List Reading) (r : Reading), r ∈ rows → r.id < nextId rows) := by
  refine ⟨fun rows batch => batch_insert_ids batch rows,
    fun rows batch => batch_insert_timestamps batch rows,
    fun rows batch => batch_insert_take batch rows, ?_,
    fun rows r h => id_lt_nextId h⟩
  intro rows batch
  have h := congrArg List.length (batch_insert_ids batch rows)
  simpa using h

/-- Witness for C4 amended: the hypothesised conjunct at a concrete store —
the id of the only row is below the next assigned id. -/
theorem c4_append_amended_witness :
    (⟨1, "t", "c", PyVal.int 1, 0⟩ : Reading).id <
      nextId [⟨1, "t", "c", PyVal.int 1, 0⟩] :=
  c4_append_amended.2.2.2.2 _ _ (List.mem_singleton_self _)

theorem sent_preserved_step {rows : List Reading} {id : Nat} (op : Op)
    (hop : op ≠ Op.prune)
    (h : ∃ r, r ∈ rows ∧ r.id = id ∧ r.sent_flag = 1) :
    ∃ r, r ∈ applyOp rows op ∧ r.id = id ∧ r.sent_flag = 1 := by
  obtain ⟨r, hr, hid, hflag⟩ := h
  cases op with
  | insert batch =>
    exact ⟨r, mem_batch_insert_of_mem batch rows hr, hid, hflag⟩
  | mark ids =>
    show ∃ q, q ∈ mark_readings_as_sent rows ids ∧ q.id = id ∧ q.sent_flag = 1
    unfold mark_readings_as_sent
    split
    · exact ⟨r, hr, hid, hflag⟩
    · by_cases h : r.id ∈ ids
      · exact ⟨{ r with sent_flag := 1 },
          List.mem_map.mpr ⟨r, hr, by simp [h]⟩, hid, rfl⟩
      · exact ⟨r, List.mem_map.mpr ⟨r, hr, by simp [h]⟩, hid, hflag⟩
  | prune => exact absurd rfl hop

/-- C8: the delivery flag is monotone and Sent rows are never redelivered,
in both implementations.  For database.py: (1) no single store operation
ever reverses `Unsent ← Sent` — in a table with distinct ids (the
primary-key invariant), if the row at some id is Sent, then after any
`insert`/`mark`/`prune` every row still at that id is Sent; (2)
`get_unsent_readings` selects only rows with `sent_flag = 0`, so a Sent row
is never fetched, hence never redelivered; (3) along any operation sequence
that does not delete the row (no prune), a Sent row stays present and Sent;
(4) the distinct-ids invariant is preserved by every operation.  For
store.py (`save_reading`/`mark_as_published`, which has no delete at all):
(5) no single operation reverses `Unsent ← Sent` at an id; (6)
`get_unpublished_readings` returns only rows with `published = 0`, so a Sent
row is never redelivered; (7) along EVERY operation sequence a Sent row
stays present and Sent; (8) the distinct-ids invariant is preserved. -/
theorem c8_sent_monotone :
    (∀ (rows : List Reading) (op : Op) (id : Nat),
        (rows.map (fun r => r.id)).Nodup →
        (∃ r, r ∈ rows ∧ r.id = id ∧ r.sent_flag = 1) →
        ∀ r2, r2 ∈ applyOp rows op → r2.id = id → r2.sent_flag = 1)
    ∧ (∀ (rows : List Reading) (n : Nat) (r : Reading),
        r ∈ selectUnsent rows n → r.sent_flag = 0)
    ∧ (∀ (rows : List Reading) (ops : List Op) (id : Nat),
        (∀ op ∈ ops, op ≠ Op.prune) →
        (∃ r, r ∈ rows ∧ r.id = id ∧ r.sent_flag = 1) →
        ∃ r, r ∈ applyOps rows ops ∧ r.id = id ∧ r.sent_flag = 1)
    ∧ (∀ (rows : List Reading) (op : Op),
        (rows.map (fun r => r.id)).Nodup →
        ((applyOp rows op).map (fun r => r.id)).Nodup)
    ∧ (∀ (rows : List DLRow) (op : DLOp) (id : Nat),
        (rows.map (fun r => r.id)).Nodup →
        (∃ r, r ∈ rows ∧ r.id = id ∧ r.published = 1) →
        ∀ r2, r2 ∈ applyDLOp rows op → r2.id = id → r2.published = 1)
    ∧ (∀ (rows : List DLRow) (limit : Nat) (r : DLRow),
        r ∈ get_unpublished_readings rows limit → r.published = 0)
    ∧ (∀ (rows : List DLRow) (ops : List DLOp) (id : Nat),
        (∃ r, r ∈ rows ∧ r.id = id ∧ r.published = 1) →
        ∃ r, r ∈ applyDLOps rows ops ∧ r.id = id ∧ r.published = 1)
    ∧ (∀ (rows : List DLRow) (op : DLOp),
        (rows.map (fun r => r.id)).Nodup →
        ((applyDLOp rows op).map (fun r => r.id)).Nodup) := by
  refine ⟨?_, ?_, ?_, ?_, ?_, ?_, ?_, ?_⟩
  · intro rows op id hnd h r2 h2 h2id
    obtain ⟨r, hr, hid, hflag⟩ := h
    have hinj := List.inj_on_of_nodup_map hnd
    cases op with
    | insert batch =>
      rcases mem_batch_insert batch rows h2 with h3 | h3
      · have : r2 = r := hinj h3 hr (by rw [h2id, hid])
        rw [this]; exact hflag
      · have := id_lt_nextId hr
        omega
    | mark ids =>
      have h2' : r2 ∈ mark_readings_as_sent rows ids := h2
      unfold mark_readings_as_sent at h2'
      split at h2'
      · have : r2 = r := hinj h2' hr (by rw [h2id, hid])
        rw [this]; exact hflag
      · obtain ⟨r3, hr3, rfl⟩ := List.mem_map.mp h2'
        by_cases h4 : r3.id ∈ ids
        · simp [h4]
        · rw [if_neg h4] at h2id ⊢
          have : r3 = r := hinj hr3 hr (by rw [h2id, hid])
          rw [this]; exact hflag
    | prune =>
      have h3 : r2 ∈ rows :=
        (deleteSentLimit_sublist rows 5000).subset h2
      have : r2 = r := hinj h3 hr (by rw [h2id, hid])
      rw [this]; exact hflag
  · intro rows n r h
    exact (mem_selectUnsent h).2
  · intro rows ops id hops h
    induction ops generalizing rows with
    | nil => exact h
    | cons op ops ih =>
      exact ih (applyOp rows op)
        (fun o ho => hops o (List.mem_cons_of_mem _ ho))
        (sent_preserved_step op (hops op (List.mem_cons_self _ _)) h)
  · intro rows op hnd
    cases op with
    | insert batch =>
      have h := batch_insert_ids batch rows
      rw [show applyOp rows (Op.insert batch) = batch_insert_readings rows batch
        from rfl, h, List.nodup_append]
      refine ⟨hnd, List.nodup_range' _ _, ?_⟩
      intro a ha hb
      obtain ⟨r, hr, rfl⟩ := List.mem_map.mp ha
      obtain ⟨i, hi, heq⟩ := List.mem_range'.mp hb
      have := id_lt_nextId hr
      omega
    | mark ids =>
      rw [show applyOp rows (Op.mark ids) = mark_readings_as_sent rows ids
        from rfl, mark_sent_map_field (fun r => r.id) (fun r => rfl)]
      exact hnd
    | prune =>
      exact hnd.sublist
        (List.Sublist.map _ (deleteSentLimit_sublist rows 5000))
  · intro rows op id hnd h r2 h2 h2id
    obtain ⟨r, hr, hid, hflag⟩ := h
    have hinj := List.inj_on_of_nodup_map hnd
    cases op with
    | save now d =>
      rcases List.mem_append.mp h2 with h3 | h3
      · have : r2 = r := hinj h3 hr (by rw [h2id, hid])
        rw [this]; exact hflag
      · rcases List.mem_singleton.mp h3 with rfl
        have h4 : dlNextId rows = id := h2id
        have := dlId_lt_dlNextId hr
        omega
    | mark ids =>
      have h2' : r2 ∈ mark_as_published rows ids := h2
      unfold mark_as_published at h2'
      split at h2'
      · have : r2 = r := hinj h2' hr (by rw [h2id, hid])
        rw [this]; exact hflag
      · obtain ⟨r3, hr3, rfl⟩ := List.mem_map.mp h2'
        by_cases h4 : r3.id ∈ ids
        · simp [h4]
        · rw [if_neg h4] at h2id ⊢
          have : r3 = r := hinj hr3 hr (by rw [h2id, hid])
          rw [this]; exact hflag
  · intro rows limit r h
    exact (mem_get_unpublished h).2
  · intro rows ops id h
    induction ops generalizing rows with
    | nil => exact h
    | cons op ops ih =>
      exact ih (applyDLOp rows op) (published_preserved_step op h)
  · intro rows op hnd
    cases op with
    | save now d =>
      rw [show applyDLOp rows (DLOp.save now d) = save_reading rows now d
        from rfl]
      unfold save_reading
      rw [List.map_append, List.nodup_append]
      refine ⟨hnd, by simp, ?_⟩
      intro a ha hb
      obtain ⟨r, hr, rfl⟩ := List.mem_map.mp ha
      have h1 : r.id = dlNextId rows := by simpa using hb
      have := dlId_lt_dlNextId hr
      omega
    | mark ids =>
      rw [show applyDLOp rows (DLOp.mark ids) = mark_as_published rows ids
        from rfl, mark_pub_map_field (fun r => r.id) (fun r => rfl)]
      exact hnd

/-- Witness for C8: the eight conjuncts applied at concrete stores of both
variants: marking a Sent row keeps every row at its id Sent; a selected
unsent row has flag 0; a Sent row survives an insert-then-mark sequence;
distinct ids survive an insert — each checked for database.py and for
store.py. -/
theorem c8_sent_monotone_witness :
    (∀ r2, r2 ∈ applyOp [(⟨1, "t", "c", PyVal.int 1, 1⟩ : Reading)]
        (Op.mark [1]) → r2.id = 1 → r2.sent_flag = 1)
    ∧ (⟨2, "u", "c", PyVal.int 2, 0⟩ : Reading).sent_flag = 0
    ∧ (∃ r, r ∈ applyOps [(⟨1, "t", "c", PyVal.int 1, 1⟩ : Reading)]
        [Op.insert [⟨"t2", "c", PyVal.int 2⟩], Op.mark [2]] ∧
        r.id = 1 ∧ r.sent_flag = 1)
    ∧ ((applyOp [(⟨1, "t", "c", PyVal.int 1, 1⟩ : Reading)]
        (Op.insert [⟨"t2", "c", PyVal.int 2⟩])).map (fun r => r.id)).Nodup
    ∧ (∀ r2, r2 ∈ applyDLOp [(⟨1, 5, PyVal.int 1, 1⟩ : DLRow)]
        (DLOp.mark [1]) → r2.id = 1 → r2.published = 1)
    ∧ (⟨2, 6, PyVal.int 2, 0⟩ : DLRow).published = 0
    ∧ (∃ r, r ∈ applyDLOps [(⟨1, 5, PyVal.int 1, 1⟩ : DLRow)]
        [DLOp.save 9 (PyVal.int 2), DLOp.mark [2]] ∧
        r.id = 1 ∧ r.published = 1)
    ∧ ((applyDLOp [(⟨1, 5, PyVal.int 1, 1⟩ : DLRow)]
        (DLOp.save 9 (PyVal.int 2))).map (fun r => r.id)).Nodup :=
  ⟨c8_sent_monotone.1 _ (Op.mark [1]) 1 (by decide)
      ⟨_, List.mem_singleton_self _, rfl, rfl⟩,
   c8_sent_monotone.2.1 [⟨2, "u", "c", PyVal.int 2, 0⟩] 5 _
      (List.mem_singleton_self _),
   c8_sent_monotone.2.2.1 _ [Op.insert [⟨"t2", "c", PyVal.int 2⟩], Op.mark [2]]
      1 (by intro o ho; fin_cases ho <;> simp)
      ⟨_, List.mem_singleton_self _, rfl, rfl⟩,
   c8_sent_monotone.2.2.2.1 _ (Op.insert [⟨"t2", "c", PyVal.int 2⟩])
      (by decide),
   c8_sent_monotone.2.2.2.2.1 _ (DLOp.mark [1]) 1 (by decide)
      ⟨_, List.mem_singleton_self _, rfl, rfl⟩,
   c8_sent_monotone.2.2.2.2.2.1 [⟨2, 6, PyVal.int 2, 0⟩] 5 _
      (List.mem_singleton_self _),
   c8_sent_monotone.2.2.2.2.2.2.1 _ [DLOp.save 9 (PyVal.int 2), DLOp.mark [2]]
      1 ⟨_, List.mem_singleton_self _, rfl, rfl⟩,
   c8_sent_monotone.2.2.2.2.2.2.2 _ (DLOp.save 9 (PyVal.int 2)) (by decide)⟩

/-- C9 counterexample: neither variant round-trips every payload
byte-for-byte.  database.py serializes with `json.dumps` on insert and
deserializes with `json.loads` on fetch; a payload dict with the integer key
`1` comes back with the string key `"1"` — inserting such a payload and
fetching it returns a different payload.  store.py stores `str(data_dict)`
and the pipeline reads it back with `eval` (publish.py line 36); a payload
that is the string `1` is stored as its own unquoted text and `eval` turns
it into the int `1`, again a different payload. -/
theorem c9_int_key_counterexample :
    (get_unsent_readings
        (batch_insert_readings []
          [⟨"t", "c", PyVal.dict [(PyKey.i 1, PyVal.int 2)]⟩]) 10 =
        [⟨1, "t", "c", PyVal.dict [(PyKey.s "1", PyVal.int 2)]⟩]
      ∧ PyVal.dict [(PyKey.s "1", PyVal.int 2)] ≠
          PyVal.dict [(PyKey.i 1, PyVal.int 2)])
    ∧ (strEvalRoundTrip (PyVal.str "1") = Option.some (PyVal.int 1)
      ∧ Option.some (PyVal.int 1) ≠ Option.some (PyVal.str "1")) :=
  ⟨⟨rfl, by simp⟩, ⟨rfl, by simp⟩⟩

/-- C9 amended: the write-then-read composition on payloads is not the
identity in either variant.  In database.py it is `jsonRoundTrip` (dict keys
are coerced to their JSON string form), the identity exactly on payloads all
of whose dict keys are already strings; every row fetched by
`get_unsent_readings` carries `jsonRoundTrip` of the payload stored at its
id.  In store.py the composition is `str` then `eval` (`strEvalRoundTrip`):
the identity on every non-string payload (whose `repr` rendering `eval`
parses back), but a string payload is stored as its own unquoted text and
`eval` executes it as a Python expression. -/
theorem c9_roundtrip_amended :
    (∀ p : PyVal, stringKeys p = true → jsonRoundTrip p = p)
    ∧ (∀ (rows : List Reading) (n : Nat) (q : ReadingRow),
        q ∈ get_unsent_readings rows n →
        ∃ r, r ∈ rows ∧ r.sent_flag = 0 ∧ q.id = r.id ∧
          q.data = jsonRoundTrip r.data)
    ∧ (∀ v : PyVal, (∀ s, v ≠ PyVal.str s) →
        strEvalRoundTrip v = Option.some v) := by
  refine ⟨stringKeys_roundTrip, ?_, ?_⟩
  · intro rows n q hq
    obtain ⟨r, hr, rfl⟩ := List.mem_map.mp hq
    obtain ⟨hmem, hflag⟩ := mem_selectUnsent hr
    exact ⟨r, hmem, hflag, rfl, rfl⟩
  · intro v h
    cases v with
    | str s => exact absurd rfl (h s)
    | int _ => rfl
    | bool _ => rfl
    | none => rfl
    | list _ => rfl
    | dict _ => rfl

/-- Witness for C9 amended: a string-keyed payload json-round-trips
unchanged; the single fetched row of a one-row store carries the
round-tripped payload of the stored row; and a dict payload survives the
store.py `str`/`eval` composition. -/
theorem c9_roundtrip_amended_witness :
    jsonRoundTrip (PyVal.dict [(PyKey.s "temp", PyVal.int 25)]) =
        PyVal.dict [(PyKey.s "temp", PyVal.int 25)]
    ∧ (∃ r, r ∈ [(⟨1, "t", "c", PyVal.dict [(PyKey.s "temp", PyVal.int 25)], 0⟩ :
          Reading)] ∧ r.sent_flag = 0 ∧
        (⟨1, "t", "c", PyVal.dict [(PyKey.s "temp", PyVal.int 25)]⟩ :
          ReadingRow).id = r.id ∧
        (⟨1, "t", "c", PyVal.dict [(PyKey.s "temp", PyVal.int 25)]⟩ :
          ReadingRow).data = jsonRoundTrip r.data)
    ∧ strEvalRoundTrip (PyVal.dict [(PyKey.s "temp", PyVal.int 25)]) =
        Option.some (PyVal.dict [(PyKey.s "temp", PyVal.int 25)]) :=
  ⟨c9_roundtrip_amended.1 _ rfl,
   c9_roundtrip_amended.2.1
     [⟨1, "t", "c", PyVal.dict [(PyKey.s "temp", PyVal.int 25)], 0⟩] 5 _
     (List.mem_singleton_self _),
   c9_roundtrip_amended.2.2 _ (fun s => by simp)⟩

end Dataloggers
